import Mathlib

/-!
Shallow embedding of the route66 routing layer (src/mod.ts).

The embedding mirrors the TypeScript source:
* `RouterItem` (pattern compiler output), its `conflicts` and `matches` methods;
* the `Router` route table (`addRoute` models `Router._add`) and `process`;
* the cooperative handler chain (`runHandlers` models the handler loop in
  `Router.process`, with a handler returning its final state together with the
  flag recording whether it invoked the `next` continuation);
* the `bodyJSON` middleware and `readBodyAsJSON`, with the host pieces
  (`JSON.parse`, `decodeURIComponent`, body reading) abstracted as parameters.

JavaScript strings are modelled through `String.data : List Char`;
`pattern.split('/')` is modelled by `splitChar`, which agrees with the
JavaScript `String.prototype.split` on a single-character separator.
JavaScript plain-object stores (`params[k] = v`) are modelled by `recordSet`
(last write wins, insertion position preserved).
-/

namespace Route66

/-- The five HTTP methods of the `RouterMethod` union type. -/
inductive RouterMethod where
  | GET
  | POST
  | PATCH
  | DELETE
  | OPTIONS
deriving DecidableEq, Repr

/-- The fixed-case string of a `RouterMethod`, as compared against
`method.toUpperCase()` in `RouterItem.matches`. -/
def methodName : RouterMethod → String
  | .GET => "GET"
  | .POST => "POST"
  | .PATCH => "PATCH"
  | .DELETE => "DELETE"
  | .OPTIONS => "OPTIONS"

/-- `RouterItemPart = { name: string, param: boolean }`. -/
structure RouterItemPart where
  name : String
  param : Bool
deriving DecidableEq, Repr

/-- A JavaScript record of string keys, insertion ordered. -/
abbrev Record (β : Type) := List (String × β)

/-- `r[k] = v` on a JavaScript plain object: overwrite the value in place if
the key is present, otherwise append the pair. -/
def recordSet {β : Type} (r : Record β) (k : String) (v : β) : Record β :=
  if r.any (fun q => q.1 = k) then
    r.map (fun q => if q.1 = k then (k, v) else q)
  else
    r ++ [(k, v)]

/-- Lookup in a JavaScript record. -/
def recordGet {β : Type} (r : Record β) (k : String) : Option β :=
  (r.find? (fun q => q.1 = k)).map (fun q => q.2)

/-- The `params` object built by `RouterItem.matches`. -/
abbrev Params := Record String

/-- `s.split(sep)` for a one-character separator, on the character list. -/
def splitChar (sep : Char) : List Char → List (List Char)
  | [] => [[]]
  | c :: cs =>
    let r := splitChar sep cs
    if c = sep then [] :: r
    else
      match r with
      | [] => [[c]]
      | p :: ps => (c :: p) :: ps

/-- `pattern.split('/').filter(i => !!i)`: the non-empty `/`-separated pieces
of a pattern (or of a request pathname). -/
def pieces (p : String) : List String :=
  ((splitChar '/' p.data).filter (fun cs => cs ≠ [])).map (fun cs => String.mk cs)

/-- Compilation of one pattern piece, mirroring the per-piece branch of the
`RouterItem` constructor: a piece containing `:` must have it as sole first
character and becomes a named parameter; otherwise a piece containing `*`
must be exactly `*` and becomes the wildcard part; otherwise it is literal. -/
def compilePiece (piece : String) : Option RouterItemPart :=
  if piece.data.any (fun c => c = ':') then
    if piece.data.head? = some ':' ∧ piece.data.tail.any (fun c => c = ':') = false then
      some ⟨String.mk piece.data.tail, true⟩
    else
      none
  else if piece.data.any (fun c => c = '*') then
    if piece.data.length = 1 then some ⟨"*", true⟩ else none
  else
    some ⟨piece, false⟩

/-- Compilation of all pieces in order; `none` as soon as one piece is bad
(the constructor throws at the first bad piece). -/
def compileParts : List String → Option (List RouterItemPart)
  | [] => some []
  | s :: rest =>
    match compilePiece s, compileParts rest with
    | some part, some tailParts => some (part :: tailParts)
    | _, _ => none

/-- Number of `*` characters in a pattern string.  The constructor's check
`pattern.indexOf('*') !== pattern.lastIndexOf('*')` holds exactly when this
count is at least two. -/
def starCount (p : String) : Nat :=
  (p.data.filter (fun c => c = '*')).length

/-- The compiled form of one registration (class `RouterItem`, minus the
handler chain, which the dispatcher model carries separately). -/
structure RouterItem where
  method : RouterMethod
  pattern : String
  parts : List RouterItemPart
  variadic : Bool
deriving DecidableEq, Repr

/-- The `wrong pattern "..."` construction error message. -/
def wrongPattern (p : String) : String :=
  "wrong pattern \"" ++ p ++ "\""

/-- The `RouterItem` constructor: empty patterns and patterns with more than
one `*` are rejected, then each non-empty `/`-piece is compiled;
`_variadic` is set from `pattern.includes('*')`. -/
def compile (method : RouterMethod) (pattern : String) : Except String RouterItem :=
  if pattern.length = 0 then
    .error "pattern length must be greater than 0"
  else if 2 ≤ starCount pattern then
    .error (wrongPattern pattern)
  else
    match compileParts (pieces pattern) with
    | none => .error (wrongPattern pattern)
    | some parts => .ok ⟨method, pattern, parts, pattern.data.any (fun c => c = '*')⟩

/-- The segment walk of `RouterItem.conflicts`: the loop runs to the longer
length, returns `false` as soon as one side has no segment, `true` as soon as
either side's segment is named `*`, skips positions where either side is a
parameter, returns `false` on a literal mismatch, and returns `true` if the
loop completes. -/
def conflictsParts : List RouterItemPart → List RouterItemPart → Bool
  | [], [] => true
  | [], _ :: _ => false
  | _ :: _, [] => false
  | l :: ls, r :: rs =>
    if l.name = "*" ∨ r.name = "*" then true
    else if l.param ∨ r.param then conflictsParts ls rs
    else if l.name ≠ r.name then false
    else conflictsParts ls rs

/-- `RouterItem.conflicts`: patterns of different methods never conflict;
otherwise the segment walk decides. -/
def RouterItem.conflicts (a b : RouterItem) : Bool :=
  if a.method ≠ b.method then false else conflictsParts a.parts b.parts

/-- The matching loop of `RouterItem.matches`: pattern parts against request
segments at the same index.  A parameter part named `*` stores the `/`-join of
all remaining request segments (`parts.slice(i).join('/')`) under its name; any
other parameter part stores the request segment at its index; a literal part
must equal the request segment or the whole match fails.  The loop does not
stop after a `*` part.  (Under the length rule of `matches` the request list
is never exhausted before the pattern, so the `headD ""` default for a
parameter part is never taken.) -/
def matchWalk : List RouterItemPart → List String → Params → Option Params
  | [], _, acc => some acc
  | l :: ls, rs, acc =>
    if l.param then
      if l.name = "*" then
        matchWalk ls rs.tail (recordSet acc l.name (String.intercalate "/" rs))
      else
        matchWalk ls rs.tail (recordSet acc l.name (rs.headD ""))
    else if rs.head? = some l.name then
      matchWalk ls rs.tail acc
    else
      none

/-- `method.toUpperCase()`, character by character (agrees with
`String.toUpper` but defined directly on the character list so that it
evaluates inside the kernel). -/
def strToUpper (s : String) : String :=
  String.mk (s.data.map Char.toUpper)

/-- `RouterItem.matches(method, parts)`: the incoming method string is
upper-cased and compared with the fixed-case method; then the length rule
(exact length if not variadic, pattern length at most request length if
variadic); then the segment walk.  Returns the success flag and the bound
parameters (empty on failure). -/
def RouterItem.matches (item : RouterItem) (method : String) (segs : List String) :
    Bool × Params :=
  if strToUpper method = methodName item.method then
    if (item.parts.length = segs.length ∧ item.variadic = false)
        ∨ (item.parts.length ≤ segs.length ∧ item.variadic = true) then
      match matchWalk item.parts segs [] with
      | some ps => (true, ps)
      | none => (false, [])
    else
      (false, [])
  else
    (false, [])

/-- `Router._add`: compile the pattern, fail if the new item conflicts with
any already-registered item (naming both patterns), otherwise append. -/
def addRoute (routes : List RouterItem) (method : RouterMethod) (pattern : String) :
    Except String (List RouterItem) :=
  match compile method pattern with
  | .error e => .error e
  | .ok item =>
    match routes.find? (fun i => item.conflicts i) with
    | some i =>
      let a := item.pattern
      let b := i.pattern
      .error ("pattern \"" ++ a ++ "\" conflicts with previously added pattern \"" ++ b ++ "\"")
    | none => .ok (routes ++ [item])

/-- The abstract host request: its method string and the pathname of its
parsed URL (`new URL(req.url, 'http://whatever').pathname`). -/
structure Request where
  method : String
  pathname : String
deriving DecidableEq, Repr

/-- `RouterContext<T>`: the request handle, the caller-supplied props value
and the params produced by matching. -/
structure RouterContext (π : Type) where
  req : Request
  props : π
  params : Params
deriving DecidableEq, Repr

/-- A handler in the shallow embedding: it receives the context and the
current world state `σ` and returns the new state together with the flag that
records whether it invoked its `next` continuation before completing. -/
abbrev Handler (π σ : Type) := RouterContext π → σ → σ × Bool

/-- The handler loop of `Router.process`: each handler runs with a fresh
`next = false` flag; when the handler completes without having set the flag
the loop breaks.  Returns the final state and the number of handlers that
were invoked. -/
def runHandlers {π σ : Type} : List (Handler π σ) → RouterContext π → σ → σ × Nat
  | [], _, s => (s, 0)
  | h :: hs, ctx, s =>
    let r := h ctx s
    if r.2 then
      let rest := runHandlers hs ctx r.1
      (rest.1, rest.2 + 1)
    else
      (r.1, 1)

/-- One registered route: the compiled item together with its handler chain. -/
structure Route (π σ : Type) where
  item : RouterItem
  handlers : List (Handler π σ)

/-- The scan of `Router.process` over the route table, with the request's
path segments precomputed. -/
def processGo {π σ : Type} (parts : List String) (req : Request) (props : π) (s : σ) :
    List (Route π σ) → σ × Bool
  | [] => (s, false)
  | r :: rest =>
    let res := r.item.matches req.method parts
    if res.1 then
      ((runHandlers r.handlers ⟨req, props, res.2⟩ s).1, true)
    else
      processGo parts req props s rest

/-- `Router.process`: split the pathname, scan the routes in registration
order, run the first matching route's handler chain on a fresh context, and
return whether some route matched. -/
def process {π σ : Type} (routes : List (Route π σ)) (req : Request) (props : π) (s : σ) :
    σ × Bool :=
  processGo (pieces req.pathname) req props s routes

/-- Textual substitution on a pattern piece: a piece that is exactly `:*`
(a named parameter whose name is the single character `*`) is replaced by the
plain wildcard piece `*`.  Used to compare the two spellings of a wildcard
segment. -/
def starSegSub (s : String) : String :=
  if s = ":*" then "*" else s

/-- The error classification of `bodyJSON`'s catch clause: the two typed
error classes thrown by `readBodyAsJSON`, and anything else. -/
inductive BodyError where
  | jsonParse (msg : String)
  | unsupportedMedia (msg : String)
  | other (msg : String)
deriving DecidableEq, Repr

/-- `readBodyAsJSON`, with the host pieces abstracted: `parseJSON` stands for
`JSON.parse` and `decodeForm` for `paramsToObject(decodeURIComponent(text), '&')`
(whose `decodeURIComponent` may throw a generic error).  A `JSON.parse`
failure becomes `JSONParseError`; an unrecognised content type becomes
`UnsupportedMediaTypeError`; a failure inside the form branch stays generic. -/
def readBodyAsJSON {α : Type} (parseJSON : String → Except String α)
    (decodeForm : String → Except String α)
    (contentType : Option String) (text : String) : Except BodyError α :=
  if contentType = some "application/json" then
    match parseJSON text with
    | .ok v => .ok v
    | .error m => .error (.jsonParse m)
  else if contentType = some "application/x-www-form-urlencoded" then
    match decodeForm text with
    | .ok v => .ok v
    | .error m => .error (.other m)
  else
    .error (.unsupportedMedia "content type not supported")

/-- The world state seen by the `bodyJSON` middleware: the props record the
decoded body is stored into, and the response status it sends on failure. -/
structure BodyWorld (α : Type) where
  props : Record α
  sent : Option Nat
deriving DecidableEq, Repr

/-- The `bodyJSON(key)` middleware, applied to the result of
`readBodyAsJSON` on this request's body: on success it stores the decoded
value under `key` and invokes `next()`; on failure it responds 415 / 400 /
500 according to the error class and never invokes `next()`. -/
def bodyJSON {α π : Type} (key : String) (readRes : Except BodyError α) :
    Handler π (BodyWorld α) :=
  fun _ w =>
    match readRes with
    | .ok v => ({ w with props := recordSet w.props key v }, true)
    | .error (.unsupportedMedia _) => ({ w with sent := some 415 }, false)
    | .error (.jsonParse _) => ({ w with sent := some 400 }, false)
    | .error (.other _) => ({ w with sent := some 500 }, false)

/-! ## Helper lemmas -/

/-- The matching loop over a concatenation of pattern parts runs the first
block, then the second block against the request segments shifted by the
first block's length. -/
theorem matchWalk_append (l₁ l₂ : List RouterItemPart) (rs : List String) (acc : Params) :
    matchWalk (l₁ ++ l₂) rs acc
      = (matchWalk l₁ rs acc).bind (fun a => matchWalk l₂ (rs.drop l₁.length) a) := by
  induction l₁ generalizing rs acc with
  | nil => simp [matchWalk]
  | cons l ls ih =>
    have hdrop : ∀ xs : List String, List.drop ls.length xs.tail = List.drop (ls.length + 1) xs := by
      intro xs
      rw [← List.drop_one, List.drop_drop, Nat.add_comm]
    simp only [List.cons_append, matchWalk, List.length_cons]
    by_cases hp : l.param
    · by_cases hw : l.name = "*"
      · simp [hp, hw, ih, hdrop]
      · simp [hp, hw, ih, hdrop]
    · by_cases hh : rs.head? = some l.name
      · simp [hp, hh, ih, hdrop]
      · simp [hp, hh]

/-- The dispatcher's handler loop never invokes more handlers than the chain
holds. -/
theorem runHandlers_count_le {π σ : Type} (hs : List (Handler π σ)) (ctx : RouterContext π)
    (s : σ) : (runHandlers hs ctx s).2 ≤ hs.length := by
  induction hs generalizing s with
  | nil => simp [runHandlers]
  | cons h t ih =>
    simp only [runHandlers, List.length_cons]
    by_cases hc : (h ctx s).2
    · simp only [hc, if_true]
      exact Nat.succ_le_succ (ih _)
    · simp only [hc, if_false, Bool.false_eq_true]
      exact Nat.succ_le_succ (Nat.zero_le _)

/-- When no route in the scanned suffix matches, the scan returns `false`
and the state untouched. -/
theorem processGo_no_match {π σ : Type} (parts : List String) (req : Request) (props : π)
    (s : σ) (l : List (Route π σ))
    (h : ∀ r ∈ l, (r.item.matches req.method parts).1 = false) :
    processGo parts req props s l = (s, false) := by
  induction l with
  | nil => rfl
  | cons r rest ih =>
    have hr := h r (by simp)
    simp only [processGo, hr, Bool.false_eq_true, if_false]
    exact ih (fun x hx => h x (by simp [hx]))

/-- The first matching route in the scanned list wins: everything before it
is skipped, its handler chain runs on a fresh context carrying its bound
params, and everything after it is never examined. -/
theorem processGo_first_match {π σ : Type} (parts : List String) (req : Request) (props : π)
    (s : σ) (pre : List (Route π σ)) (r : Route π σ) (post : List (Route π σ))
    (hpre : ∀ x ∈ pre, (x.item.matches req.method parts).1 = false)
    (hr : (r.item.matches req.method parts).1 = true) :
    processGo parts req props s (pre ++ r :: post)
      = ((runHandlers r.handlers ⟨req, props, (r.item.matches req.method parts).2⟩ s).1,
         true) := by
  induction pre with
  | nil => simp [processGo, hr]
  | cons a pre' ih =>
    have ha := hpre a (by simp)
    simp only [List.cons_append, processGo, ha, Bool.false_eq_true, if_false]
    exact ih (fun x hx => hpre x (by simp [hx]))

/-- `matches` reads only the method, the parts and the variadic flag of a
compiled item, never its raw pattern string. -/
theorem matches_congr (a b : RouterItem) (h1 : a.method = b.method) (h2 : a.parts = b.parts)
    (h3 : a.variadic = b.variadic) (meth : String) (segs : List String) :
    RouterItem.matches a meth segs = RouterItem.matches b meth segs := by
  unfold RouterItem.matches
  rw [h1, h2, h3]

/-- Characterisation of a failing piece compilation. -/
theorem compilePiece_eq_none (s : String) :
    compilePiece s = none ↔
      ((s.data.any (fun c => c = ':') = true
          ∧ ¬(s.data.head? = some ':' ∧ s.data.tail.any (fun c => c = ':') = false))
        ∨ (s.data.any (fun c => c = ':') = false ∧ s.data.any (fun c => c = '*') = true
            ∧ s.data.length ≠ 1)) := by
  cases h1 : s.data.any (fun c => c = ':') with
  | true =>
    by_cases h2 : s.data.head? = some ':' ∧ s.data.tail.any (fun c => c = ':') = false
    · simp [compilePiece, h1, h2]
    · simp [compilePiece, h1, h2]
  | false =>
    cases h3 : s.data.any (fun c => c = '*') with
    | true =>
      by_cases h4 : s.data.length = 1
      · simp [compilePiece, h1, h3, h4]
      · simp [compilePiece, h1, h3, h4]
    | false => simp [compilePiece, h1, h3]

/-- The piece-list compiler fails exactly when some piece fails. -/
theorem compileParts_eq_none (l : List String) :
    compileParts l = none ↔ ∃ s ∈ l, compilePiece s = none := by
  induction l with
  | nil => simp [compileParts]
  | cons a t ih =>
    cases ha : compilePiece a with
    | none =>
      simp only [compileParts, ha]
      exact ⟨fun _ => ⟨a, by simp, ha⟩, fun _ => trivial⟩
    | some part =>
      cases ht : compileParts t with
      | none =>
        simp only [compileParts, ha, ht]
        constructor
        · intro _
          obtain ⟨s, hs, hbad⟩ := ih.mp ht
          exact ⟨s, by simp [hs], hbad⟩
        · intro _; trivial
      | some ps =>
        simp only [compileParts, ha, ht]
        constructor
        · intro h; cases h
        · rintro ⟨s, hs, hbad⟩
          rcases List.mem_cons.mp hs with rfl | hs2
          · rw [ha] at hbad; cases hbad
          · rw [ih.mpr ⟨s, hs2, hbad⟩] at ht; cases ht

/-- Every compiled part comes from some piece of the input list. -/
theorem compileParts_mem (l : List String) (parts : List RouterItemPart)
    (h : compileParts l = some parts) :
    ∀ part ∈ parts, ∃ s ∈ l, compilePiece s = some part := by
  induction l generalizing parts with
  | nil =>
    simp only [compileParts, Option.some.injEq] at h
    subst h; simp
  | cons a t ih =>
    cases ha : compilePiece a with
    | none => simp [compileParts, ha] at h
    | some p0 =>
      cases ht : compileParts t with
      | none => simp [compileParts, ha, ht] at h
      | some ps =>
        simp only [compileParts, ha, ht, Option.some.injEq] at h
        subst h
        intro part hp
        rcases List.mem_cons.mp hp with rfl | h2
        · exact ⟨a, by simp, ha⟩
        · obtain ⟨s, hs, h3⟩ := ih ps ht part h2
          exact ⟨s, by simp [hs], h3⟩

/-- A compiled part whose name is the reserved `*` can only come from a piece
containing a `*` character (either the piece `*` itself or the piece `:*`). -/
theorem compilePiece_star (s : String) (part : RouterItemPart)
    (h : compilePiece s = some part) (hname : part.name = "*") : '*' ∈ s.data := by
  unfold compilePiece at h
  split at h
  · split at h
    · injection h with h
      subst h
      have hdata : s.data.tail = "*".data := congrArg String.data hname
      have : '*' ∈ s.data.tail := by rw [hdata]; simp
      exact List.mem_of_mem_tail this
    · cases h
  · split at h
    · split at h
      · rename_i hstarbranch _
        obtain ⟨c, hc, hc2⟩ := List.any_eq_true.mp hstarbranch
        have : c = '*' := by simpa using hc2
        subst this
        exact hc
      · cases h
    · injection h with h
      subst h
      have hdata : s.data = "*".data := congrArg String.data hname
      rw [hdata]; simp

/-- Every character of every piece of a split is a character of the split
string. -/
theorem splitChar_mem (sep : Char) (l : List Char) (cs : List Char)
    (hcs : cs ∈ splitChar sep l) (c : Char) (hc : c ∈ cs) : c ∈ l := by
  induction l generalizing cs with
  | nil =>
    simp only [splitChar, List.mem_singleton] at hcs
    subst hcs
    cases hc
  | cons a t ih =>
    simp only [splitChar] at hcs
    by_cases ha : a = sep
    · rw [if_pos ha] at hcs
      rcases List.mem_cons.mp hcs with rfl | h2
      · cases hc
      · exact List.mem_cons_of_mem a (ih cs h2 hc)
    · rw [if_neg ha] at hcs
      cases hr : splitChar sep t with
      | nil =>
        rw [hr] at hcs
        simp only [List.mem_singleton] at hcs
        subst hcs
        rcases List.mem_singleton.mp hc with rfl
        simp
      | cons p ps =>
        rw [hr] at hcs
        rcases List.mem_cons.mp hcs with rfl | h2
        · rcases List.mem_cons.mp hc with rfl | h3
          · simp
          · exact List.mem_cons_of_mem a (ih p (by rw [hr]; simp) h3)
        · exact List.mem_cons_of_mem a (ih cs (by rw [hr]; simp [h2]) hc)

/-- Every character of every non-empty `/`-piece of a pattern occurs in the
pattern string. -/
theorem pieces_char_mem (p : String) (t : String) (ht : t ∈ pieces p) (c : Char)
    (hc : c ∈ t.data) : c ∈ p.data := by
  unfold pieces at ht
  obtain ⟨cs, hcs, hmk⟩ := List.mem_map.mp ht
  have h2 := List.mem_filter.mp hcs
  subst hmk
  exact splitChar_mem '/' p.data cs h2.1 c hc

/-- `l.includes('*')` seen through the number of `*` characters. -/
theorem any_star_eq_count (l : List Char) :
    l.any (fun c => c = '*') = decide (0 < (l.filter (fun c => c = '*')).length) := by
  induction l with
  | nil => simp
  | cons a t ih =>
    by_cases ha : a = '*'
    · subst ha; simp
    · simp [ha, ih]

/-- Substituting `:*` by `*` in one piece does not change its compiled part. -/
theorem compilePiece_sub (s : String) : compilePiece (starSegSub s) = compilePiece s := by
  by_cases h : s = ":*"
  · subst h; decide
  · simp [starSegSub, h]

/-- Substituting `:*` by `*` piecewise does not change the compiled parts
list. -/
theorem compileParts_sub (l : List String) :
    compileParts (l.map starSegSub) = compileParts l := by
  induction l with
  | nil => rfl
  | cons a t ih => simp [compileParts, compilePiece_sub, ih]

/-- The constructor fails exactly on an empty pattern, a pattern with at
least two `*` characters, or a pattern with a bad piece. -/
theorem compile_error_iff (m : RouterMethod) (p : String) :
    (∃ e, compile m p = .error e) ↔
      (p.length = 0 ∨ 2 ≤ starCount p ∨ ∃ s ∈ pieces p, compilePiece s = none) := by
  unfold compile
  by_cases h1 : p.length = 0
  · simp [h1]
  · rw [if_neg h1]
    by_cases h2 : 2 ≤ starCount p
    · simp [h1, h2]
    · rw [if_neg h2]
      cases hcp : compileParts (pieces p) with
      | none =>
        simp only [h1, h2, false_or]
        exact ⟨fun _ => (compileParts_eq_none _).mp hcp, fun _ => ⟨wrongPattern p, rfl⟩⟩
      | some parts =>
        simp only [h1, h2, false_or]
        constructor
        · rintro ⟨e, he⟩; cases he
        · intro hbad
          rw [(compileParts_eq_none _).mpr hbad] at hcp
          cases hcp

/-- `Router._add` succeeds exactly when the pattern compiles and the new item
conflicts with no already-registered item; on success the table is exactly
the old table with the new item appended. -/
theorem addRoute_ok_iff (routes : List RouterItem) (m : RouterMethod) (p : String)
    (rts : List RouterItem) :
    addRoute routes m p = .ok rts ↔
      ∃ item, compile m p = .ok item
        ∧ (∀ i ∈ routes, item.conflicts i = false)
        ∧ rts = routes ++ [item] := by
  unfold addRoute
  cases hc : compile m p with
  | error e =>
    simp
  | ok item =>
    cases hf : routes.find? (fun i => item.conflicts i) with
    | some i =>
      have hmem := List.find?_some hf
      simp only [hf]
      constructor
      · intro h; cases h
      · rintro ⟨item2, hi2, hnoc, hrts⟩
        injection hi2 with hi2
        subst hi2
        have := hnoc i (List.mem_of_find?_eq_some hf)
        rw [this] at hmem
        cases hmem
    | none =>
      have hnone := List.find?_eq_none.mp hf
      simp only [hf]
      constructor
      · intro h
        injection h with h
        refine ⟨item, rfl, ?_, h.symm⟩
        intro i hi
        have := hnone i hi
        simpa using this
      · rintro ⟨item2, hi2, hnoc, hrts⟩
        injection hi2 with hi2
        subst hi2
        rw [hrts]

/-- Whether the matching loop fails does not depend on the parameters
accumulated so far. -/
theorem matchWalk_none_iff (parts : List RouterItemPart) (rs : List String)
    (acc acc2 : Params) : matchWalk parts rs acc = none ↔ matchWalk parts rs acc2 = none := by
  induction parts generalizing rs acc acc2 with
  | nil => simp [matchWalk]
  | cons l ls ih =>
    simp only [matchWalk]
    by_cases hp : l.param = true
    · rw [if_pos hp, if_pos hp]
      by_cases hw : l.name = "*"
      · rw [if_pos hw, if_pos hw]
        exact ih _ _ _
      · rw [if_neg hw, if_neg hw]
        exact ih _ _ _
    · rw [if_neg hp, if_neg hp]
      by_cases hh : rs.head? = some l.name
      · rw [if_pos hh, if_pos hh]
        exact ih _ _ _
      · rw [if_neg hh, if_neg hh]

/-- Core soundness of the structural conflict walk, for parts lists whose
variadic behaviour is faithfully described by the presence of a part named
`*` (which is the case for every pattern whose named parameters contain no
`*` character): two walks that both satisfy their length rule and both
succeed on the same request segments force `conflictsParts` to report a
conflict. -/
theorem conflictsParts_disjoint (pa : List RouterItemPart) :
    ∀ (pb : List RouterItemPart) (rs : List String),
      conflictsParts pa pb = false →
      (if pa.any (fun q => q.name == "*") = true then pa.length ≤ rs.length
        else pa.length = rs.length) →
      (if pb.any (fun q => q.name == "*") = true then pb.length ≤ rs.length
        else pb.length = rs.length) →
      ¬matchWalk pa rs [] = none → ¬matchWalk pb rs [] = none → False := by
  induction pa with
  | nil =>
    intro pb rs hc hga hgb _ _
    have hrs : rs = [] := by
      simp only [List.any_nil, Bool.false_eq_true, if_false, List.length_nil] at hga
      exact List.length_eq_zero.mp hga.symm
    subst hrs
    cases pb with
    | nil => simp [conflictsParts] at hc
    | cons r rsb =>
      split at hgb
      · simp at hgb
      · simp at hgb
  | cons l ls ih =>
    intro pb rs hc hga hgb hwa hwb
    cases pb with
    | nil =>
      have hrs : rs = [] := by
        simp only [List.any_nil, Bool.false_eq_true, if_false, List.length_nil] at hgb
        exact List.length_eq_zero.mp hgb.symm
      subst hrs
      split at hga
      · simp at hga
      · simp at hga
    | cons r rsb =>
      by_cases hl : l.name = "*"
      · simp [conflictsParts, hl] at hc
      · by_cases hr : r.name = "*"
        · simp [conflictsParts, hl, hr] at hc
        · cases rs with
          | nil =>
            split at hga
            · simp at hga
            · simp at hga
          | cons s ss =>
            have hga2 : (if ls.any (fun q => q.name == "*") = true
                then ls.length ≤ ss.length else ls.length = ss.length) := by
              have hany : (l :: ls).any (fun q => q.name == "*")
                  = ls.any (fun q => q.name == "*") := by simp [hl]
              rw [hany] at hga
              by_cases ha2 : ls.any (fun q => q.name == "*") = true
              · rw [if_pos ha2] at hga
                rw [if_pos ha2]
                simp only [List.length_cons] at hga
                omega
              · rw [if_neg ha2] at hga
                rw [if_neg ha2]
                simp only [List.length_cons] at hga
                omega
            have hgb2 : (if rsb.any (fun q => q.name == "*") = true
                then rsb.length ≤ ss.length else rsb.length = ss.length) := by
              have hany : (r :: rsb).any (fun q => q.name == "*")
                  = rsb.any (fun q => q.name == "*") := by simp [hr]
              rw [hany] at hgb
              by_cases ha2 : rsb.any (fun q => q.name == "*") = true
              · rw [if_pos ha2] at hgb
                rw [if_pos ha2]
                simp only [List.length_cons] at hgb
                omega
              · rw [if_neg ha2] at hgb
                rw [if_neg ha2]
                simp only [List.length_cons] at hgb
                omega
            have hwa2 : ¬matchWalk ls ss [] = none := by
              intro hnone
              apply hwa
              simp only [matchWalk]
              by_cases hp : l.param = true
              · rw [if_pos hp, if_neg hl]
                exact (matchWalk_none_iff ls ss _ []).mpr hnone
              · rw [if_neg hp]
                by_cases hh : (s :: ss).head? = some l.name
                · rw [if_pos hh]
                  exact hnone
                · rw [if_neg hh]
            have hwb2 : ¬matchWalk rsb ss [] = none := by
              intro hnone
              apply hwb
              simp only [matchWalk]
              by_cases hp : r.param = true
              · rw [if_pos hp, if_neg hr]
                exact (matchWalk_none_iff rsb ss _ []).mpr hnone
              · rw [if_neg hp]
                by_cases hh : (s :: ss).head? = some r.name
                · rw [if_pos hh]
                  exact hnone
                · rw [if_neg hh]
            have hname_a : l.param = false → l.name = s := by
              intro hp
              by_contra hne
              apply hwa
              simp only [matchWalk]
              rw [if_neg (by simp [hp])]
              rw [if_neg (show ¬((s :: ss).head? = some l.name) from by
                simp only [List.head?_cons]
                intro hcon
                injection hcon with hcon
                exact hne hcon.symm)]
            have hname_b : r.param = false → r.name = s := by
              intro hp
              by_contra hne
              apply hwb
              simp only [matchWalk]
              rw [if_neg (by simp [hp])]
              rw [if_neg (show ¬((s :: ss).head? = some r.name) from by
                simp only [List.head?_cons]
                intro hcon
                injection hcon with hcon
                exact hne hcon.symm)]
            by_cases hpl : l.param = true
            · have hc2 : conflictsParts ls rsb = false := by
                simp only [conflictsParts] at hc
                rw [if_neg (show ¬(l.name = "*" ∨ r.name = "*") from by
                  rintro (h | h)
                  · exact hl h
                  · exact hr h)] at hc
                rwa [if_pos (Or.inl hpl)] at hc
              exact ih rsb ss hc2 hga2 hgb2 hwa2 hwb2
            · by_cases hpr : r.param = true
              · have hc2 : conflictsParts ls rsb = false := by
                  simp only [conflictsParts] at hc
                  rw [if_neg (show ¬(l.name = "*" ∨ r.name = "*") from by
                    rintro (h | h)
                    · exact hl h
                    · exact hr h)] at hc
                  rwa [if_pos (Or.inr hpr)] at hc
                exact ih rsb ss hc2 hga2 hgb2 hwa2 hwb2
              · have hplf : l.param = false := by
                  cases hx : l.param with
                  | false => rfl
                  | true => exact absurd hx hpl
                have hprf : r.param = false := by
                  cases hx : r.param with
                  | false => rfl
                  | true => exact absurd hx hpr
                have heq : l.name = r.name := by
                  rw [hname_a hplf, hname_b hprf]
                have hc2 : conflictsParts ls rsb = false := by
                  simp only [conflictsParts] at hc
                  rw [if_neg (show ¬(l.name = "*" ∨ r.name = "*") from by
                    rintro (h | h)
                    · exact hl h
                    · exact hr h)] at hc
                  rw [if_neg (show ¬(l.param = true ∨ r.param = true) from by
                    rintro (h | h)
                    · exact hpl h
                    · exact hpr h)] at hc
                  rwa [if_neg (show ¬(l.name ≠ r.name) from fun h => h heq)] at hc
                exact ih rsb ss hc2 hga2 hgb2 hwa2 hwb2

/-- Soundness of `conflicts` on the fragment without the `:x*` anomaly: for
two items whose variadic flag agrees with the presence of a part named `*`
(true of every item compiled from a pattern whose named parameters contain no
`*`), a reported non-conflict really means no request is matched by both. -/
theorem conflicts_sound (a b : RouterItem)
    (ha : a.variadic = a.parts.any (fun q => q.name == "*"))
    (hb : b.variadic = b.parts.any (fun q => q.name == "*"))
    (hm : a.method = b.method)
    (hc : RouterItem.conflicts a b = false)
    (meth : String) (segs : List String)
    (hma : (RouterItem.matches a meth segs).1 = true) :
    (RouterItem.matches b meth segs).1 = false := by
  have hcp : conflictsParts a.parts b.parts = false := by
    unfold RouterItem.conflicts at hc
    rwa [if_neg (show ¬a.method ≠ b.method from fun hne => hne hm)] at hc
  unfold RouterItem.matches at hma
  by_cases hmea : strToUpper meth = methodName a.method
  · rw [if_pos hmea] at hma
    by_cases hguard : (a.parts.length = segs.length ∧ a.variadic = false)
        ∨ (a.parts.length ≤ segs.length ∧ a.variadic = true)
    · rw [if_pos hguard] at hma
      have hwa : ¬matchWalk a.parts segs [] = none := by
        intro hnone
        rw [hnone] at hma
        simp at hma
      have hga : if a.parts.any (fun q => q.name == "*") = true
          then a.parts.length ≤ segs.length else a.parts.length = segs.length := by
        by_cases hany : a.parts.any (fun q => q.name == "*") = true
        · rw [if_pos hany]
          rcases hguard with ⟨hlen, hv⟩ | ⟨hlen, _⟩
          · rw [ha, hany] at hv; cases hv
          · exact hlen
        · rw [if_neg hany]
          rcases hguard with ⟨hlen, _⟩ | ⟨hlen, hv⟩
          · exact hlen
          · rw [ha] at hv; exact absurd hv hany
      unfold RouterItem.matches
      by_cases hmeb : strToUpper meth = methodName b.method
      · rw [if_pos hmeb]
        by_cases hguardb : (b.parts.length = segs.length ∧ b.variadic = false)
            ∨ (b.parts.length ≤ segs.length ∧ b.variadic = true)
        · rw [if_pos hguardb]
          have hgb : if b.parts.any (fun q => q.name == "*") = true
              then b.parts.length ≤ segs.length else b.parts.length = segs.length := by
            by_cases hany : b.parts.any (fun q => q.name == "*") = true
            · rw [if_pos hany]
              rcases hguardb with ⟨hlen, hv⟩ | ⟨hlen, _⟩
              · rw [hb, hany] at hv; cases hv
              · exact hlen
            · rw [if_neg hany]
              rcases hguardb with ⟨hlen, _⟩ | ⟨hlen, hv⟩
              · exact hlen
              · rw [hb] at hv; exact absurd hv hany
          cases hwb : matchWalk b.parts segs [] with
          | some ps =>
            exact (conflictsParts_disjoint a.parts b.parts segs hcp hga hgb hwa
              (by rw [hwb]; simp)).elim
          | none => rfl
        · rw [if_neg hguardb]
      · rw [if_neg hmeb]
    · rw [if_neg hguard] at hma
      simp at hma
  · rw [if_neg hmea] at hma
    simp at hma

/-! ## Claims -/

/-- C1: the registration-time conflict check is claimed to guarantee that two
registered same-method patterns never both match one request.  Evaluating the
code at the failing input refutes this: `/a/b` and `/:x*` (a named parameter
whose name contains `*`, which silently makes the item variadic) register for
`GET` with no conflict reported in either direction, yet both match the
request `GET /a/b`. -/
theorem C1_conflict_invariant_violated :
    compile .GET "/a/b" = .ok ⟨.GET, "/a/b", [⟨"a", false⟩, ⟨"b", false⟩], false⟩
    ∧ compile .GET "/:x*" = .ok ⟨.GET, "/:x*", [⟨"x*", true⟩], true⟩
    ∧ RouterItem.conflicts ⟨.GET, "/:x*", [⟨"x*", true⟩], true⟩
        ⟨.GET, "/a/b", [⟨"a", false⟩, ⟨"b", false⟩], false⟩ = false
    ∧ RouterItem.conflicts ⟨.GET, "/a/b", [⟨"a", false⟩, ⟨"b", false⟩], false⟩
        ⟨.GET, "/:x*", [⟨"x*", true⟩], true⟩ = false
    ∧ addRoute [] .GET "/a/b" = .ok [⟨.GET, "/a/b", [⟨"a", false⟩, ⟨"b", false⟩], false⟩]
    ∧ addRoute [⟨.GET, "/a/b", [⟨"a", false⟩, ⟨"b", false⟩], false⟩] .GET "/:x*"
        = .ok [⟨.GET, "/a/b", [⟨"a", false⟩, ⟨"b", false⟩], false⟩,
               ⟨.GET, "/:x*", [⟨"x*", true⟩], true⟩]
    ∧ (RouterItem.matches ⟨.GET, "/:x*", [⟨"x*", true⟩], true⟩ "GET" ["a", "b"]).1 = true
    ∧ (RouterItem.matches ⟨.GET, "/a/b", [⟨"a", false⟩, ⟨"b", false⟩], false⟩ "GET"
        ["a", "b"]).1 = true :=
  ⟨rfl, rfl, rfl, rfl, rfl, rfl, rfl, rfl⟩

/-- C2 counterexample: the pattern `/files/*` does not match the path
`/files`: a variadic pattern requires at least as many request segments as
pattern segments, so the wildcard never binds the empty remainder. -/
theorem C2_counterexample :
    compile .GET "/files/*" = .ok ⟨.GET, "/files/*", [⟨"files", false⟩, ⟨"*", true⟩], true⟩
    ∧ RouterItem.matches ⟨.GET, "/files/*", [⟨"files", false⟩, ⟨"*", true⟩], true⟩ "GET"
        ["files"] = (false, []) :=
  ⟨rfl, rfl⟩

/-- C2 (amended): for every request method that upper-cases to the registered
method, `/files/*` rejects `/files` but matches `/files/a` and `/files/a/b/c`
binding `*` to `"a"` and `"a/b/c"`, and `/files/:name` matches `/files/a`
binding `name` to `"a"` but rejects `/files/a/b`. -/
theorem C2_matching_examples (m : String) (h : strToUpper m = "GET") :
    compile .GET "/files/*" = .ok ⟨.GET, "/files/*", [⟨"files", false⟩, ⟨"*", true⟩], true⟩
    ∧ RouterItem.matches ⟨.GET, "/files/*", [⟨"files", false⟩, ⟨"*", true⟩], true⟩ m
        ["files"] = (false, [])
    ∧ RouterItem.matches ⟨.GET, "/files/*", [⟨"files", false⟩, ⟨"*", true⟩], true⟩ m
        ["files", "a"] = (true, [("*", "a")])
    ∧ RouterItem.matches ⟨.GET, "/files/*", [⟨"files", false⟩, ⟨"*", true⟩], true⟩ m
        ["files", "a", "b", "c"] = (true, [("*", "a/b/c")])
    ∧ compile .GET "/files/:name"
        = .ok ⟨.GET, "/files/:name", [⟨"files", false⟩, ⟨"name", true⟩], false⟩
    ∧ RouterItem.matches ⟨.GET, "/files/:name", [⟨"files", false⟩, ⟨"name", true⟩], false⟩ m
        ["files", "a"] = (true, [("name", "a")])
    ∧ RouterItem.matches ⟨.GET, "/files/:name", [⟨"files", false⟩, ⟨"name", true⟩], false⟩ m
        ["files", "a", "b"] = (false, []) := by
  refine ⟨rfl, ?_, ?_, ?_, rfl, ?_, ?_⟩ <;>
    (unfold RouterItem.matches; rw [h]; decide)

/-- C2 witness: the amended matching facts evaluated at the method `GET`. -/
theorem C2_matching_examples_witness :
    strToUpper "GET" = "GET"
    ∧ RouterItem.matches ⟨.GET, "/files/*", [⟨"files", false⟩, ⟨"*", true⟩], true⟩ "GET"
        ["files"] = (false, [])
    ∧ RouterItem.matches ⟨.GET, "/files/*", [⟨"files", false⟩, ⟨"*", true⟩], true⟩ "GET"
        ["files", "a", "b", "c"] = (true, [("*", "a/b/c")]) :=
  ⟨rfl, (C2_matching_examples "GET" rfl).2.1, (C2_matching_examples "GET" rfl).2.2.2.1⟩

/-- C3 counterexample: the match walk does not end at a wildcard segment.
The pattern `/a/*/b` compiles, and on the request segments `a, x, c` the
wildcard at index 1 is reached with every earlier segment matching, yet the
match fails: the literal segment `b` declared after the wildcard is still
examined against the request segment `c`. -/
theorem C3_counterexample :
    compile .GET "/a/*/b"
      = .ok ⟨.GET, "/a/*/b", [⟨"a", false⟩, ⟨"*", true⟩, ⟨"b", false⟩], true⟩
    ∧ RouterItem.matches ⟨.GET, "/a/*/b", [⟨"a", false⟩, ⟨"*", true⟩, ⟨"b", false⟩], true⟩
        "GET" ["a", "x", "c"] = (false, []) :=
  ⟨rfl, rfl⟩

/-- C3 (amended): when the walk reaches a wildcard part after matching the
prefix, the reserved name `*` is bound to the `/`-join of all remaining
request segments, and the walk then continues with the pattern parts after
the wildcard against the later request segments — so those parts can still
fail the match. -/
theorem C3_wildcard_walk (pre post : List RouterItemPart) (rs : List String)
    (acc acc2 : Params) (h : matchWalk pre rs acc = some acc2) :
    matchWalk (pre ++ ⟨"*", true⟩ :: post) rs acc
      = matchWalk post ((rs.drop pre.length).drop 1)
          (recordSet acc2 "*" (String.intercalate "/" (rs.drop pre.length))) := by
  rw [matchWalk_append, h]
  show matchWalk (⟨"*", true⟩ :: post) (rs.drop pre.length) acc2 = _
  simp [matchWalk, List.drop_one]

/-- C3 witness: the wildcard walk decomposition evaluated at an empty prefix
and the request segments `x, y`. -/
theorem C3_wildcard_walk_witness :
    matchWalk [] ["x", "y"] [] = some []
    ∧ matchWalk ([] ++ ⟨"*", true⟩ :: []) ["x", "y"] []
      = matchWalk [] ((["x", "y"].drop 0).drop 1)
          (recordSet [] "*" (String.intercalate "/" (["x", "y"].drop 0))) :=
  ⟨rfl, C3_wildcard_walk [] [] ["x", "y"] [] [] rfl⟩

/-- C4: `process` scans the table in registration order; when no route
matches it returns `false` with the state untouched (no handler runs), and
when some route matches, the first matching route wins, its handler chain
runs on a fresh context holding its bound params, later routes are never
examined, and `process` returns `true` regardless of how the chain ended. -/
theorem C4_process_first_match {π σ : Type} (routes : List (Route π σ)) (req : Request)
    (props : π) (s : σ) :
    ((∀ r ∈ routes, (r.item.matches req.method (pieces req.pathname)).1 = false) →
      process routes req props s = (s, false))
    ∧ (∀ pre r post, routes = pre ++ r :: post →
        (∀ x ∈ pre, (x.item.matches req.method (pieces req.pathname)).1 = false) →
        (r.item.matches req.method (pieces req.pathname)).1 = true →
        process routes req props s
          = ((runHandlers r.handlers
                ⟨req, props, (r.item.matches req.method (pieces req.pathname)).2⟩ s).1,
             true)) := by
  constructor
  · intro h
    exact processGo_no_match _ _ _ _ _ h
  · intro pre r post hroutes hpre hr
    subst hroutes
    exact processGo_first_match _ _ _ _ _ _ _ hpre hr

/-- C4 witness: a table of two routes where the second is the first match for
`GET /b`; `process` returns `true` with the first route skipped. -/
theorem C4_process_first_match_witness :
    process [(⟨⟨.GET, "/a", [⟨"a", false⟩], false⟩, []⟩ : Route Nat Nat),
             ⟨⟨.GET, "/b", [⟨"b", false⟩], false⟩, []⟩] ⟨"GET", "/b"⟩ 0 0 = (0, true) :=
  (C4_process_first_match _ _ _ _).2
    [⟨⟨.GET, "/a", [⟨"a", false⟩], false⟩, []⟩] ⟨⟨.GET, "/b", [⟨"b", false⟩], false⟩, []⟩ []
    rfl
    (by
      intro x hx
      rw [List.mem_singleton] at hx
      subst hx
      decide)
    (by decide)

/-- C5: in the handler chain, when the first handler completes without
invoking its continuation, no later handler runs (exactly one handler was
invoked and the state is the first handler's state); when it does invoke the
continuation, the rest of the chain runs on the same context starting from
the first handler's state; and never more handlers run than the chain holds. -/
theorem C5_handler_chain {π σ : Type} (h₁ h₂ : Handler π σ) (t : List (Handler π σ))
    (ctx : RouterContext π) (s : σ) :
    ((h₁ ctx s).2 = false → runHandlers (h₁ :: h₂ :: t) ctx s = ((h₁ ctx s).1, 1))
    ∧ ((h₁ ctx s).2 = true →
        runHandlers (h₁ :: h₂ :: t) ctx s
          = ((runHandlers (h₂ :: t) ctx (h₁ ctx s).1).1,
             (runHandlers (h₂ :: t) ctx (h₁ ctx s).1).2 + 1))
    ∧ (runHandlers (h₁ :: h₂ :: t) ctx s).2 ≤ t.length + 2 := by
  refine ⟨?_, ?_, ?_⟩
  · intro hf
    simp only [runHandlers, hf, Bool.false_eq_true, if_false]
  · intro htr
    simp only [runHandlers, htr, if_true]
  · have := runHandlers_count_le (h₁ :: h₂ :: t) ctx s
    simpa using this

/-- C5 witness: a two-handler chain whose first handler never continues stops
after one handler. -/
theorem C5_handler_chain_witness :
    runHandlers [fun _ s => (s + 1, false), fun _ s => (s + 10, true)]
      (⟨⟨"GET", "/"⟩, (), []⟩ : RouterContext Unit) 0 = ((1 : Nat), 1) :=
  (C5_handler_chain (fun _ s => (s + 1, false)) (fun _ s => (s + 10, true)) []
    ⟨⟨"GET", "/"⟩, (), []⟩ 0).1 rfl

/-- C6 counterexample: the pattern `/:q*` has a segment containing `*`
together with other characters, yet registration succeeds: a segment whose
first and only `:` is its first character is accepted as a named parameter
regardless of any `*` in the remainder. -/
theorem C6_counterexample :
    addRoute [] .GET "/:q*" = .ok [⟨.GET, "/:q*", [⟨"q*", true⟩], true⟩] := rfl

/-- C6 (amended): compilation fails exactly on an empty pattern, more than
one `*` character, a piece whose `:` is not its sole first character, or a
`:`-free piece containing `*` along with other characters; and registration
succeeds exactly when the pattern compiles and conflicts with no registered
item, in which case the table is exactly the old table plus the new item —
so every failing registration leaves the table unchanged. -/
theorem C6_registration_failure (routes : List RouterItem) (m : RouterMethod) (p : String) :
    ((∃ e, compile m p = .error e) ↔
      (p.length = 0 ∨ 2 ≤ starCount p
        ∨ ∃ s ∈ pieces p,
            ((s.data.any (fun c => c = ':') = true
                ∧ ¬(s.data.head? = some ':' ∧ s.data.tail.any (fun c => c = ':') = false))
              ∨ (s.data.any (fun c => c = ':') = false ∧ s.data.any (fun c => c = '*') = true
                  ∧ s.data.length ≠ 1))))
    ∧ (∀ rts, addRoute routes m p = .ok rts ↔
        ∃ item, compile m p = .ok item
          ∧ (∀ i ∈ routes, item.conflicts i = false)
          ∧ rts = routes ++ [item]) := by
  constructor
  · refine (compile_error_iff m p).trans ?_
    refine or_congr Iff.rfl (or_congr Iff.rfl ?_)
    refine exists_congr fun s => and_congr_right fun _ => ?_
    exact compilePiece_eq_none s
  · intro rts
    exact addRoute_ok_iff routes m p rts

/-- C6 witness: registering `/w` on an empty table succeeds and appends
exactly the compiled item. -/
theorem C6_registration_failure_witness :
    addRoute [] .GET "/w" = .ok ([] ++ [⟨.GET, "/w", [⟨"w", false⟩], false⟩]) :=
  ((C6_registration_failure [] .GET "/w").2 _).mpr
    ⟨⟨.GET, "/w", [⟨"w", false⟩], false⟩, rfl, by simp, rfl⟩

/-- C7: patterns of different methods never conflict; registering
`/users/:id` and then `/users/active` for `GET` fails at registration time
with a conflict error naming both patterns; and registering `GET /a/:x` then
`POST /a/:x` succeeds. -/
theorem C7_conflict_examples :
    (∀ a b : RouterItem, a.method ≠ b.method → RouterItem.conflicts a b = false)
    ∧ addRoute [] .GET "/users/:id"
        = .ok [⟨.GET, "/users/:id", [⟨"users", false⟩, ⟨"id", true⟩], false⟩]
    ∧ addRoute [⟨.GET, "/users/:id", [⟨"users", false⟩, ⟨"id", true⟩], false⟩] .GET
        "/users/active"
        = .error
            "pattern \"/users/active\" conflicts with previously added pattern \"/users/:id\""
    ∧ addRoute [] .GET "/a/:x" = .ok [⟨.GET, "/a/:x", [⟨"a", false⟩, ⟨"x", true⟩], false⟩]
    ∧ addRoute [⟨.GET, "/a/:x", [⟨"a", false⟩, ⟨"x", true⟩], false⟩] .POST "/a/:x"
        = .ok [⟨.GET, "/a/:x", [⟨"a", false⟩, ⟨"x", true⟩], false⟩,
               ⟨.POST, "/a/:x", [⟨"a", false⟩, ⟨"x", true⟩], false⟩] := by
  refine ⟨?_, rfl, rfl, rfl, rfl⟩
  intro a b h
  unfold RouterItem.conflicts
  rw [if_pos h]

/-- C7 witness: the method-difference rule evaluated at the compiled items of
`GET /a/:x` and `POST /a/:x`. -/
theorem C7_conflict_examples_witness :
    RouterItem.conflicts ⟨.GET, "/a/:x", [⟨"a", false⟩, ⟨"x", true⟩], false⟩
      ⟨.POST, "/a/:x", [⟨"a", false⟩, ⟨"x", true⟩], false⟩ = false :=
  C7_conflict_examples.1 _ _ (by decide)

/-- C8 counterexample: `/:y*` compiles with `variadic = true` although no
part with name `*` was produced — the flag comes from the raw string
containing `*`, not from a wildcard segment. -/
theorem C8_counterexample :
    compile .GET "/:y*" = .ok ⟨.GET, "/:y*", [⟨"y*", true⟩], true⟩
    ∧ (⟨.GET, "/:y*", [⟨"y*", true⟩], true⟩ : RouterItem).variadic = true
    ∧ ([⟨"y*", true⟩] : List RouterItemPart).any (fun q => q.name == "*") = false :=
  ⟨rfl, rfl, rfl⟩

/-- C8 (amended): the variadic flag of a compiled item equals `*`-containment
of the raw pattern string; the existence of a part named `*` still implies
the flag, but not conversely. -/
theorem C8_variadic_flag (m : RouterMethod) (p : String) (item : RouterItem)
    (h : compile m p = .ok item) :
    item.variadic = p.data.any (fun c => c = '*')
    ∧ (item.parts.any (fun q => q.name == "*") = true → item.variadic = true) := by
  unfold compile at h
  by_cases h1 : p.length = 0
  · rw [if_pos h1] at h; cases h
  · rw [if_neg h1] at h
    by_cases h2 : 2 ≤ starCount p
    · rw [if_pos h2] at h; cases h
    · rw [if_neg h2] at h
      cases hcp : compileParts (pieces p) with
      | none => rw [hcp] at h; cases h
      | some parts =>
        rw [hcp] at h
        injection h with h
        subst h
        refine ⟨rfl, ?_⟩
        intro hany
        obtain ⟨q, hq, hq2⟩ := List.any_eq_true.mp hany
        have hname : q.name = "*" := by simpa using hq2
        obtain ⟨s, hs, hsp⟩ := compileParts_mem _ _ hcp q hq
        have hstar : '*' ∈ s.data := compilePiece_star s q hsp hname
        have hmem : '*' ∈ p.data := pieces_char_mem p s hs '*' hstar
        simp only [List.any_eq_true]
        exact ⟨'*', hmem, by simp⟩

/-- C8 witness: the amended flag rule evaluated at the pattern `/*`. -/
theorem C8_variadic_flag_witness :
    (⟨.GET, "/*", [⟨"*", true⟩], true⟩ : RouterItem).variadic
        = "/*".data.any (fun c => c = '*')
    ∧ (([⟨"*", true⟩] : List RouterItemPart).any (fun q => q.name == "*") = true →
        (⟨.GET, "/*", [⟨"*", true⟩], true⟩ : RouterItem).variadic = true) :=
  C8_variadic_flag .GET "/*" ⟨.GET, "/*", [⟨"*", true⟩], true⟩ rfl

/-- C9: `bodyJSON` stores the decoded value under its key and continues the
chain on success; on the three failure classes it responds 415 / 400 / 500
respectively and never continues, so the chain stops after it; and
`readBodyAsJSON` classifies an unrecognised content type as
unsupported-media-type and a parser failure as a JSON-parse failure. -/
theorem C9_bodyJSON_dispatch {α π : Type} (key : String) (v : α) (msg : String)
    (ctx : RouterContext π) (w : BodyWorld α) (hs : List (Handler π (BodyWorld α))) :
    bodyJSON key (.ok v) ctx w = ({ w with props := recordSet w.props key v }, true)
    ∧ bodyJSON key (.error (.unsupportedMedia msg)) ctx w
        = ({ w with sent := some 415 }, false)
    ∧ bodyJSON key (.error (.jsonParse msg)) ctx w = ({ w with sent := some 400 }, false)
    ∧ bodyJSON key (.error (.other msg)) ctx w = ({ w with sent := some 500 }, false)
    ∧ (∀ e : BodyError, (runHandlers (bodyJSON key (.error e) :: hs) ctx w).2 = 1)
    ∧ runHandlers (bodyJSON key (.ok v) :: hs) ctx w
        = ((runHandlers hs ctx { w with props := recordSet w.props key v }).1,
           (runHandlers hs ctx { w with props := recordSet w.props key v }).2 + 1)
    ∧ (∀ (parse decodeF : String → Except String α) (text : String),
        readBodyAsJSON parse decodeF (some "text/plain") text
          = .error (.unsupportedMedia "content type not supported"))
    ∧ (∀ (decodeF : String → Except String α) (text : String),
        readBodyAsJSON (fun _ => .error msg) decodeF (some "application/json") text
          = .error (.jsonParse msg)) := by
  refine ⟨rfl, rfl, rfl, rfl, ?_, rfl, ?_, ?_⟩
  · intro e
    cases e <;> rfl
  · intro parse decodeF text
    rfl
  · intro decodeF text
    rfl

/-- C10: a pattern with a `:*` piece compiles to the same parts, the same
variadic flag and the same method as the pattern with that piece replaced by
`*`, and the two compiled items match exactly the same requests with the
same bindings — a parameter literally named `*` is indistinguishable from a
wildcard segment. -/
theorem C10_colonstar_equals_star (m : RouterMethod) (p q : String) (item : RouterItem)
    (hpieces : pieces q = (pieces p).map starSegSub)
    (hstar : starCount q = starCount p)
    (hq : ¬q.length = 0)
    (_hseg : ":*" ∈ pieces p)
    (h : compile m p = .ok item) :
    compile m q = .ok ⟨m, q, item.parts, item.variadic⟩
    ∧ ∀ meth segs,
        RouterItem.matches ⟨m, q, item.parts, item.variadic⟩ meth segs
          = RouterItem.matches item meth segs := by
  unfold compile at h
  by_cases h1 : p.length = 0
  · rw [if_pos h1] at h; cases h
  · rw [if_neg h1] at h
    by_cases h2 : 2 ≤ starCount p
    · rw [if_pos h2] at h; cases h
    · rw [if_neg h2] at h
      cases hcp : compileParts (pieces p) with
      | none => rw [hcp] at h; cases h
      | some parts =>
        rw [hcp] at h
        injection h with h
        have hvar : q.data.any (fun c => c = '*') = p.data.any (fun c => c = '*') := by
          rw [any_star_eq_count, any_star_eq_count]
          unfold starCount at hstar
          rw [hstar]
        have hcq : compileParts (pieces q) = some parts := by
          rw [hpieces, compileParts_sub, hcp]
        subst h
        constructor
        · unfold compile
          rw [if_neg hq, if_neg (show ¬2 ≤ starCount q by rw [hstar]; exact h2), hcq,
            hvar]
        · intro meth segs
          exact matches_congr _ _ rfl rfl rfl meth segs

/-- C10 witness: `/a/:*` and `/a/*` compile to the same parts and flag and
agree on the request `a, q, r`. -/
theorem C10_colonstar_equals_star_witness :
    compile .GET "/a/*" = .ok ⟨.GET, "/a/*", [⟨"a", false⟩, ⟨"*", true⟩], true⟩
    ∧ RouterItem.matches ⟨.GET, "/a/*", [⟨"a", false⟩, ⟨"*", true⟩], true⟩ "GET"
        ["a", "q", "r"]
      = RouterItem.matches ⟨.GET, "/a/:*", [⟨"a", false⟩, ⟨"*", true⟩], true⟩ "GET"
        ["a", "q", "r"] := by
  have h := C10_colonstar_equals_star .GET "/a/:*" "/a/*"
    ⟨.GET, "/a/:*", [⟨"a", false⟩, ⟨"*", true⟩], true⟩
    (by decide) (by decide) (by decide) (by decide) rfl
  exact ⟨h.1, h.2 "GET" ["a", "q", "r"]⟩

end Route66
